import Mathlib

/-!
Verification of the go-postgres-ip-allocation repository.

The Go sources are shallowly embedded: IP addresses (`net.IP`) become lists
of byte values (`List Nat`, each entry intended `< 256`; the bit operations
used by the code — xor/or with a single-bit mask — never overflow a byte, so
no modular reduction is needed), and Go panics (out-of-range slice indexing,
the explicit panic in `Other`) become `Option`/`Except` failures.  The store
(Postgres `ip_range` table) becomes a list of records, and a transaction is
that list plus a journal of the write statements executed, so that frame
properties ("uses `Update`", "performs no writes") are statable.  An
`Except.error` result of an operation models a rolled-back transaction: no
write is committed.
-/

namespace IPAlloc

/-- A CIDR value as in `src/cidr/cidr.go`: the bytes of the network address
(4 for IPv4, 16 for IPv6) and the number of prefix bits. -/
structure CIDR where
  IP : List Nat
  PrefixBits : Nat
  deriving DecidableEq, Repr

/-- Embedding of `ipGetBit` (src/cidr/cidr.go): bit `bitIndex` of the address,
`none` when the byte index is out of range (Go panics there). -/
def ipGetBit (ip : List Nat) (bitIndex : Nat) : Option Bool :=
  let j := 7 - bitIndex % 8
  let bit := 1 <<< j
  if h : bitIndex / 8 < ip.length then
    some (decide (ip.get ⟨bitIndex / 8, h⟩ &&& bit ≠ 0))
  else
    none

/-- Embedding of `ipSetBit` (src/cidr/cidr.go): sets bit `bitIndex` to 1,
`none` when the byte index is out of range (Go panics there). -/
def ipSetBit (ip : List Nat) (bitIndex : Nat) : Option (List Nat) :=
  let j := 7 - bitIndex % 8
  let bit := 1 <<< j
  if h : bitIndex / 8 < ip.length then
    some (ip.set (bitIndex / 8) (ip.get ⟨bitIndex / 8, h⟩ ||| bit))
  else
    none

/-- Embedding of `ipFlipBit` (src/cidr/cidr.go): flips bit `bitIndex`,
`none` when the byte index is out of range (Go panics there). -/
def ipFlipBit (ip : List Nat) (bitIndex : Nat) : Option (List Nat) :=
  let j := 7 - bitIndex % 8
  let bit := 1 <<< j
  if h : bitIndex / 8 < ip.length then
    some (ip.set (bitIndex / 8) (ip.get ⟨bitIndex / 8, h⟩ ^^^ bit))
  else
    none

/-- Embedding of `(CIDR).IsLower` (src/cidr/cidr.go): false for `/0`,
otherwise the negation of bit `PrefixBits - 1`. -/
def CIDR.IsLower (c : CIDR) : Option Bool :=
  if c.PrefixBits = 0 then
    some false
  else
    (ipGetBit c.IP (c.PrefixBits - 1)).map (fun b => !b)

/-- Embedding of `(CIDR).Other` (src/cidr/cidr.go): the buddy obtained by
flipping bit `PrefixBits - 1`; `none` models the panic on `/0` or an invalid
CIDR (`PrefixBits > len(IP)*8`). -/
def CIDR.Other (c : CIDR) : Option CIDR :=
  if c.PrefixBits = 0 ∨ c.PrefixBits > c.IP.length * 8 then
    none
  else
    (ipFlipBit c.IP (c.PrefixBits - 1)).map
      (fun ip => { IP := ip, PrefixBits := c.PrefixBits })

/-- Embedding of `(CIDR).Split` (src/cidr/cidr.go): the upper half-child,
obtained by setting bit `PrefixBits` and incrementing `PrefixBits`.  The Go
code performs no explicit check: splitting a full-width CIDR panics via the
out-of-range byte index in `ipSetBit`, which is the `none` case here. -/
def CIDR.Split (c : CIDR) : Option CIDR :=
  (ipSetBit c.IP c.PrefixBits).map
    (fun ip => { IP := ip, PrefixBits := c.PrefixBits + 1 })

theorem and_one_shiftLeft_ne_zero (b j : Nat) :
    b &&& 1 <<< j ≠ 0 ↔ b.testBit j = true := by
  rw [Nat.shiftLeft_eq, one_mul]
  constructor
  · intro h
    by_contra hb
    refine h (Nat.eq_of_testBit_eq fun i => ?_)
    simp only [Nat.testBit_and, Nat.zero_testBit]
    rcases eq_or_ne j i with rfl | hij
    · simp [Bool.eq_false_iff.mpr hb]
    · simp [Nat.testBit_two_pow_of_ne hij]
  · intro hb h0
    have hj : (b &&& 2 ^ j).testBit j = true := by
      simp [Nat.testBit_and, hb, Nat.testBit_two_pow_self]
    rw [h0] at hj
    simp at hj

theorem decide_and_one_shiftLeft (b j : Nat) :
    decide (b &&& 1 <<< j ≠ 0) = b.testBit j := by
  by_cases h : b &&& 1 <<< j ≠ 0
  · simp [h, (and_one_shiftLeft_ne_zero b j).mp h]
  · have hb : ¬b.testBit j = true := fun ht => h ((and_one_shiftLeft_ne_zero b j).mpr ht)
    simp [h, Bool.eq_false_iff.mpr hb]

theorem testBit_xor_one_shiftLeft (b j : Nat) :
    (b ^^^ 1 <<< j).testBit j = !b.testBit j := by
  rw [Nat.shiftLeft_eq, one_mul, Nat.testBit_xor, Nat.testBit_two_pow_self]
  cases b.testBit j <;> rfl

theorem testBit_or_one_shiftLeft_self (b j : Nat) :
    (b ||| 1 <<< j).testBit j = true := by
  rw [Nat.shiftLeft_eq, one_mul, Nat.testBit_or, Nat.testBit_two_pow_self]
  simp

theorem testBit_or_one_shiftLeft_ne (b j m : Nat) (h : j ≠ m) :
    (b ||| 1 <<< j).testBit m = b.testBit m := by
  rw [Nat.shiftLeft_eq, one_mul, Nat.testBit_or, Nat.testBit_two_pow_of_ne h]
  simp

theorem list_set_get_self (l : List Nat) (i : Nat) (h : i < l.length) :
    l.set i (l.get ⟨i, h⟩) = l := by
  apply List.ext_getElem
  · simp
  · intro n h1 h2
    rcases eq_or_ne i n with rfl | hne
    · simp
    · simp [List.getElem_set_ne hne]

theorem ipFlipBit_eq (ip : List Nat) (k : Nat) (h : k / 8 < ip.length) :
    ipFlipBit ip k =
      some (ip.set (k / 8) (ip.get ⟨k / 8, h⟩ ^^^ 1 <<< (7 - k % 8))) := by
  simp only [ipFlipBit]
  rw [dif_pos h]

theorem ipGetBit_eq (ip : List Nat) (k : Nat) (h : k / 8 < ip.length) :
    ipGetBit ip k = some ((ip.get ⟨k / 8, h⟩).testBit (7 - k % 8)) := by
  simp only [ipGetBit]
  rw [dif_pos h, decide_and_one_shiftLeft]

theorem ipSetBit_eq (ip : List Nat) (k : Nat) (h : k / 8 < ip.length) :
    ipSetBit ip k =
      some (ip.set (k / 8) (ip.get ⟨k / 8, h⟩ ||| 1 <<< (7 - k % 8))) := by
  simp only [ipSetBit]
  rw [dif_pos h]

theorem Other_mk_eq (ip : List Nat) (pb : Nat) (h1 : pb ≠ 0)
    (h2 : pb ≤ ip.length * 8) (hidx : (pb - 1) / 8 < ip.length) :
    CIDR.Other ⟨ip, pb⟩ =
      some ⟨ip.set ((pb - 1) / 8)
        (ip.get ⟨(pb - 1) / 8, hidx⟩ ^^^ 1 <<< (7 - (pb - 1) % 8)), pb⟩ := by
  have hguard : ¬(pb = 0 ∨ pb > ip.length * 8) := by omega
  simp only [CIDR.Other]
  rw [if_neg hguard, ipFlipBit_eq ip _ hidx]
  rfl

theorem IsLower_mk_eq (ip : List Nat) (pb : Nat) (h1 : pb ≠ 0)
    (hidx : (pb - 1) / 8 < ip.length) :
    CIDR.IsLower ⟨ip, pb⟩ =
      some (!(ip.get ⟨(pb - 1) / 8, hidx⟩).testBit (7 - (pb - 1) % 8)) := by
  simp only [CIDR.IsLower]
  rw [if_neg h1, ipGetBit_eq ip _ hidx]
  rfl

/-- Hexadecimal text of one 16-bit group, lowercase, no leading zeros
(model of the Go standard library appendHex used by (net.IP).String). -/
def hexGrp (n : Nat) : String :=
  ⟨Nat.toDigits 16 n⟩

/-- Dotted-decimal text of address bytes (model of the Go standard library
IPv4 case of (net.IP).String). -/
def ipv4Dotted (ip : List Nat) : String :=
  String.intercalate "." (ip.map (fun b => toString b))

/-- Model of the Go standard library (net.IP).To4: a 4-byte address as is; a
16-byte address with the IPv4-mapped prefix (ten zero bytes then 0xff 0xff)
gives its last four bytes; anything else gives nothing. -/
def goTo4 (ip : List Nat) : Option (List Nat) :=
  if ip.length = 4 then
    some ip
  else if ip.length = 16 ∧ ((ip.take 10).all fun b => b == 0) ∧
      ip.getD 10 0 = 255 ∧ ip.getD 11 0 = 255 then
    some (ip.drop 12)
  else
    none

/-- Pairs address bytes into 16-bit groups (big endian), as the Go standard
library renders an IPv6 address two bytes at a time. -/
def toGroups : List Nat → List Nat
  | b0 :: b1 :: rest => (b0 * 256 + b1) :: toGroups rest
  | _ => []

/-- Length of the zero-group run starting at the head of the list. -/
def zeroRunAt : List Nat → Nat
  | [] => 0
  | g :: gs => if g = 0 then zeroRunAt gs + 1 else 0

/-- First longest run of zero groups: `(start, length)`, length 0 when there
is no zero group (model of the e0/e1 scan in the Go standard library
(net.IP).String; a later run replaces an earlier one only when strictly
longer, so the first longest run wins, exactly as in Go). -/
def bestZeroRun : List Nat → Nat → Nat × Nat
  | [], i => (i, 0)
  | g :: gs, i =>
    let r := zeroRunAt (g :: gs)
    let p := bestZeroRun gs (i + 1)
    if p.2 > r then p else (i, r)

/-- Joins rendered groups with ":" separators. -/
def joinColon : List String → String
  | [] => ""
  | [s] => s
  | s :: rest => s ++ ":" ++ joinColon rest

/-- IPv6 hex-group rendering with "::" compression of the first longest run
of at least two zero groups (model of the Go standard library hex case of
(net.IP).String; Go refuses to compress a single zero group, hence the
`r.2 ≤ 1` guard). -/
def ipv6Render (gs : List Nat) : String :=
  let r := bestZeroRun gs 0
  if r.2 ≤ 1 then
    joinColon (gs.map hexGrp)
  else
    joinColon ((gs.take r.1).map hexGrp) ++ "::" ++
      joinColon ((gs.drop (r.1 + r.2)).map hexGrp)

/-- Model of the Go standard library (net.IP).String, which
`src/cidr/cidr.go` calls: 4-byte (or IPv4-mapped 16-byte) addresses render
dotted-decimal, other 16-byte addresses render as compressed IPv6 hex
groups, other lengths hit Go's "?" fallback. -/
def goIPString (ip : List Nat) : String :=
  match goTo4 ip with
  | some ip4 => ipv4Dotted ip4
  | none => if ip.length = 16 then ipv6Render (toGroups ip) else "?"

/-- Embedding of `ipString` (src/cidr/cidr.go): for a 16-byte IPv4-mapped
address it sets byte 1 to 1 (so Go renders hex groups, not dotted-decimal),
renders, and slices off the leading character; otherwise it defers to the
standard rendering. -/
def ipString (ip : List Nat) : String :=
  if ip.length = 16 then
    match goTo4 ip with
    | some _ =>
      let ipCopy := ip.set 1 1
      let s := goIPString ipCopy
      s.drop 1
    | none => goIPString ip
  else
    goIPString ip

/-- Embedding of `(CIDR).String` (src/cidr/cidr.go): `"<address>/<bits>"`. -/
def CIDR.String (c : CIDR) : String :=
  ipString c.IP ++ "/" ++ toString c.PrefixBits

theorem bestZeroRun_mapped (x y : Nat) :
    bestZeroRun [1, 0, 0, 0, 0, 65535, x, y] 0 = (1, 4) := by
  by_cases hx : x = 0 <;> by_cases hy : y = 0 <;>
    simp +decide [bestZeroRun, zeroRunAt, hx, hy]

theorem drop_one_render (u v : String) :
    ((hexGrp 1 ++ "::") ++ ((hexGrp 65535 ++ ":") ++ ((u ++ ":") ++ v))).drop 1 =
      (("::ffff:" ++ u) ++ ":") ++ v := by
  obtain ⟨lu⟩ := u
  obtain ⟨lv⟩ := v
  rw [String.drop_eq]
  rfl

theorem ipString_mapped (a b d e : Nat) :
    ipString [0, 0, 0, 0, 0, 0, 0, 0, 0, 0, 255, 255, a, b, d, e] =
      (("::ffff:" ++ hexGrp (a * 256 + b)) ++ ":") ++ hexGrp (d * 256 + e) := by
  have hTo4 : goTo4 [0, 0, 0, 0, 0, 0, 0, 0, 0, 0, 255, 255, a, b, d, e] =
      some [a, b, d, e] := rfl
  have hTo4x : goTo4 [0, 1, 0, 0, 0, 0, 0, 0, 0, 0, 255, 255, a, b, d, e] = none := rfl
  have hset : ([0, 0, 0, 0, 0, 0, 0, 0, 0, 0, 255, 255, a, b, d, e] : List Nat).set 1 1 =
      [0, 1, 0, 0, 0, 0, 0, 0, 0, 0, 255, 255, a, b, d, e] := rfl
  have hgroups : toGroups [0, 1, 0, 0, 0, 0, 0, 0, 0, 0, 255, 255, a, b, d, e] =
      [1, 0, 0, 0, 0, 65535, a * 256 + b, d * 256 + e] := rfl
  have hlen : ([0, 0, 0, 0, 0, 0, 0, 0, 0, 0, 255, 255, a, b, d, e] : List Nat).length =
      16 := rfl
  have hlenx : ([0, 1, 0, 0, 0, 0, 0, 0, 0, 0, 255, 255, a, b, d, e] : List Nat).length =
      16 := rfl
  simp only [ipString]
  rw [if_pos hlen, hTo4]
  show (goIPString (([0, 0, 0, 0, 0, 0, 0, 0, 0, 0, 255, 255, a, b, d, e] :
      List Nat).set 1 1)).drop 1 =
    (("::ffff:" ++ hexGrp (a * 256 + b)) ++ ":") ++ hexGrp (d * 256 + e)
  rw [hset]
  simp only [goIPString]
  rw [hTo4x]
  show ((if ([0, 1, 0, 0, 0, 0, 0, 0, 0, 0, 255, 255, a, b, d, e] : List Nat).length = 16
      then ipv6Render (toGroups [0, 1, 0, 0, 0, 0, 0, 0, 0, 0, 255, 255, a, b, d, e])
      else "?")).drop 1 =
    (("::ffff:" ++ hexGrp (a * 256 + b)) ++ ":") ++ hexGrp (d * 256 + e)
  rw [if_pos hlenx, hgroups]
  have h2 : ipv6Render [1, 0, 0, 0, 0, 65535, a * 256 + b, d * 256 + e] =
      (hexGrp 1 ++ "::") ++ ((hexGrp 65535 ++ ":") ++
        ((hexGrp (a * 256 + b) ++ ":") ++ hexGrp (d * 256 + e))) := by
    simp only [ipv6Render, bestZeroRun_mapped]
    rfl
  rw [h2, drop_one_render]

/-- C9: `String` renders a block as `<address>/<PrefixBits>`, where a 4-byte
address renders in IPv4 dotted-decimal text, a 16-byte address in the
IPv4-mapped range renders as IPv6 hex groups (never dotted-decimal), and any
other 16-byte address renders per the standard IPv6 text rules. -/
theorem C9_format (c : CIDR) :
    (c.String = ipString c.IP ++ "/" ++ toString c.PrefixBits) ∧
    (c.IP.length = 4 → ipString c.IP = ipv4Dotted c.IP) ∧
    (∀ a b d e : Nat, c.IP = [0, 0, 0, 0, 0, 0, 0, 0, 0, 0, 255, 255, a, b, d, e] →
      ipString c.IP = (("::ffff:" ++ hexGrp (a * 256 + b)) ++ ":") ++ hexGrp (d * 256 + e)) ∧
    (c.IP.length = 16 → goTo4 c.IP = none →
      ipString c.IP = ipv6Render (toGroups c.IP)) := by
  refine ⟨rfl, ?_, ?_, ?_⟩
  · intro h4
    rw [ipString, if_neg (by omega), goIPString, goTo4, if_pos h4]
  · intro a b d e hmap
    rw [hmap]
    exact ipString_mapped a b d e
  · intro h16 hTo4
    rw [ipString, if_pos h16, hTo4, goIPString, hTo4, if_pos h16]

/-- C9 witness: the format theorem applied to three concrete blocks, one per
case — plain IPv4, an IPv4-mapped 16-byte address (rendering in hex groups as
`::ffff:a8c0:0`, the shape asserted by the repository's own tests), and a
non-mapped 16-byte address. -/
theorem C9_format_witness :
    ipString [10, 0, 0, 0] = ipv4Dotted [10, 0, 0, 0] ∧
    ipString [0, 0, 0, 0, 0, 0, 0, 0, 0, 0, 255, 255, 168, 192, 0, 0] =
      (("::ffff:" ++ hexGrp (168 * 256 + 192)) ++ ":") ++ hexGrp (0 * 256 + 0) ∧
    ipString [0, 0, 0, 0, 0, 0, 0, 0, 0, 0, 0, 0, 168, 192, 0, 0] =
      ipv6Render (toGroups [0, 0, 0, 0, 0, 0, 0, 0, 0, 0, 0, 0, 168, 192, 0, 0]) :=
  ⟨(C9_format ⟨[10, 0, 0, 0], 8⟩).2.1 rfl,
   (C9_format ⟨[0, 0, 0, 0, 0, 0, 0, 0, 0, 0, 255, 255, 168, 192, 0, 0], 128⟩).2.2.1
     168 192 0 0 rfl,
   (C9_format ⟨[0, 0, 0, 0, 0, 0, 0, 0, 0, 0, 0, 0, 168, 192, 0, 0], 5⟩).2.2.2 rfl rfl⟩

/-- C8: for every valid CIDR `c` with `0 < PrefixBits ≤ 8 * len(IP)`, taking
the buddy twice returns `c` itself: `Other` is an involution. -/
theorem C8_other_involution (c : CIDR) (h1 : 0 < c.PrefixBits)
    (h2 : c.PrefixBits ≤ c.IP.length * 8) :
    ∃ b, c.Other = some b ∧ b.Other = some c := by
  obtain ⟨ip, pb⟩ := c
  replace h1 : 0 < pb := h1
  replace h2 : pb ≤ ip.length * 8 := h2
  have hidx : (pb - 1) / 8 < ip.length := by
    rw [Nat.div_lt_iff_lt_mul (by omega)]
    omega
  refine ⟨_, Other_mk_eq ip pb (by omega) h2 hidx, ?_⟩
  have hidx1 : (pb - 1) / 8 <
      (ip.set ((pb - 1) / 8)
        (ip.get ⟨(pb - 1) / 8, hidx⟩ ^^^ 1 <<< (7 - (pb - 1) % 8))).length := by
    simpa using hidx
  rw [Other_mk_eq _ pb (by omega) (by simpa using h2) hidx1]
  have hg : ((ip.set ((pb - 1) / 8)
      (ip.get ⟨(pb - 1) / 8, hidx⟩ ^^^ 1 <<< (7 - (pb - 1) % 8))).get
      ⟨(pb - 1) / 8, hidx1⟩) =
      ip.get ⟨(pb - 1) / 8, hidx⟩ ^^^ 1 <<< (7 - (pb - 1) % 8) := by
    simp [List.get_eq_getElem]
  rw [hg, List.set_set, Nat.xor_assoc, Nat.xor_self, Nat.xor_zero, list_set_get_self]

/-- C10: for every valid CIDR `c` with `0 < PrefixBits ≤ 8 * len(IP)`, exactly
one of the buddy pair is the lower half: `IsLower (Other c) = !IsLower c`. -/
theorem C10_buddy_exactly_one_lower (c : CIDR) (h1 : 0 < c.PrefixBits)
    (h2 : c.PrefixBits ≤ c.IP.length * 8) :
    ∃ b lb, c.Other = some b ∧ c.IsLower = some lb ∧ b.IsLower = some (!lb) := by
  obtain ⟨ip, pb⟩ := c
  replace h1 : 0 < pb := h1
  replace h2 : pb ≤ ip.length * 8 := h2
  have hidx : (pb - 1) / 8 < ip.length := by
    rw [Nat.div_lt_iff_lt_mul (by omega)]
    omega
  refine ⟨_, _, Other_mk_eq ip pb (by omega) h2 hidx,
    IsLower_mk_eq ip pb (by omega) hidx, ?_⟩
  have hidx1 : (pb - 1) / 8 <
      (ip.set ((pb - 1) / 8)
        (ip.get ⟨(pb - 1) / 8, hidx⟩ ^^^ 1 <<< (7 - (pb - 1) % 8))).length := by
    simpa using hidx
  rw [IsLower_mk_eq _ pb (by omega) hidx1]
  have hg : ((ip.set ((pb - 1) / 8)
      (ip.get ⟨(pb - 1) / 8, hidx⟩ ^^^ 1 <<< (7 - (pb - 1) % 8))).get
      ⟨(pb - 1) / 8, hidx1⟩) =
      ip.get ⟨(pb - 1) / 8, hidx⟩ ^^^ 1 <<< (7 - (pb - 1) % 8) := by
    simp [List.get_eq_getElem]
  rw [hg, testBit_xor_one_shiftLeft]

/-- C7: splitting a block whose prefix is shorter than the address width
yields the upper half-child (same bits below `PrefixBits`, bit `PrefixBits`
set to 1, `PrefixBits` incremented); splitting a full-width block fails (the
Go code panics on the out-of-range byte index). -/
theorem C7_split_upper_half (c : CIDR) :
    (c.PrefixBits < 8 * c.IP.length →
      ∃ u, c.Split = some u ∧ u.PrefixBits = c.PrefixBits + 1 ∧
        ipGetBit u.IP c.PrefixBits = some true ∧
        ∀ i, i < c.PrefixBits → ipGetBit u.IP i = ipGetBit c.IP i) ∧
    (c.PrefixBits = 8 * c.IP.length → c.Split = none) := by
  obtain ⟨ip, pb⟩ := c
  constructor
  · intro hlt
    replace hlt : pb < 8 * ip.length := hlt
    have hidx : pb / 8 < ip.length := by
      rw [Nat.div_lt_iff_lt_mul (by omega)]
      omega
    refine ⟨⟨ip.set (pb / 8) (ip.get ⟨pb / 8, hidx⟩ ||| 1 <<< (7 - pb % 8)), pb + 1⟩,
      ?_, rfl, ?_, ?_⟩
    · simp only [CIDR.Split]
      rw [ipSetBit_eq ip pb hidx]
      rfl
    · have hidx1 : pb / 8 <
          (ip.set (pb / 8) (ip.get ⟨pb / 8, hidx⟩ ||| 1 <<< (7 - pb % 8))).length := by
        simpa using hidx
      rw [ipGetBit_eq _ pb hidx1]
      have hg : ((ip.set (pb / 8) (ip.get ⟨pb / 8, hidx⟩ ||| 1 <<< (7 - pb % 8))).get
          ⟨pb / 8, hidx1⟩) = ip.get ⟨pb / 8, hidx⟩ ||| 1 <<< (7 - pb % 8) := by
        simp [List.get_eq_getElem]
      rw [hg, testBit_or_one_shiftLeft_self]
    · intro i hi
      replace hi : i < pb := hi
      have hidxi : i / 8 < ip.length := by
        rw [Nat.div_lt_iff_lt_mul (by omega)]
        omega
      have hidxi1 : i / 8 <
          (ip.set (pb / 8) (ip.get ⟨pb / 8, hidx⟩ ||| 1 <<< (7 - pb % 8))).length := by
        simpa using hidxi
      rw [ipGetBit_eq _ i hidxi1, ipGetBit_eq ip i hidxi]
      rcases eq_or_ne (i / 8) (pb / 8) with heq | hne
      · have hg : ((ip.set (pb / 8) (ip.get ⟨pb / 8, hidx⟩ ||| 1 <<< (7 - pb % 8))).get
            ⟨i / 8, hidxi1⟩) = ip.get ⟨pb / 8, hidx⟩ ||| 1 <<< (7 - pb % 8) := by
          simp [List.get_eq_getElem, heq]
        have hg2 : ip.get ⟨i / 8, hidxi⟩ = ip.get ⟨pb / 8, hidx⟩ := by
          simp [List.get_eq_getElem, heq]
        have hbit : 7 - pb % 8 ≠ 7 - i % 8 := by omega
        rw [hg, hg2, testBit_or_one_shiftLeft_ne _ _ _ hbit]
      · have hg : ((ip.set (pb / 8) (ip.get ⟨pb / 8, hidx⟩ ||| 1 <<< (7 - pb % 8))).get
            ⟨i / 8, hidxi1⟩) = ip.get ⟨i / 8, hidxi⟩ := by
          simp [List.get_eq_getElem, List.getElem_set_ne (Ne.symm hne)]
        rw [hg]
  · intro heq
    replace heq : pb = 8 * ip.length := heq
    simp only [CIDR.Split, ipSetBit]
    rw [dif_neg (by omega : ¬pb / 8 < ip.length)]
    rfl

/-- C7 witness: splitting the concrete block `192.168.128.0/26` succeeds with
the described upper half, and splitting the full-width `0.0.0.0/32` fails. -/
theorem C7_split_upper_half_witness :
    (∃ u, CIDR.Split ⟨[192, 168, 128, 0], 26⟩ = some u ∧ u.PrefixBits = 27 ∧
      ipGetBit u.IP 26 = some true ∧
      ∀ i, i < 26 → ipGetBit u.IP i = ipGetBit ([192, 168, 128, 0] : List Nat) i) ∧
    CIDR.Split ⟨[0, 0, 0, 0], 32⟩ = none := by
  constructor
  · exact (C7_split_upper_half ⟨[192, 168, 128, 0], 26⟩).1 (by decide)
  · exact (C7_split_upper_half ⟨[0, 0, 0, 0], 32⟩).2 (by decide)

/-- C8 witness: a concrete valid block on which the involution theorem applies:
the buddy of `192.168.6.0/23` is `192.168.4.0/23` and vice versa. -/
theorem C8_other_involution_witness :
    ∃ b, CIDR.Other ⟨[192, 168, 6, 0], 23⟩ = some b ∧ b.Other = some ⟨[192, 168, 6, 0], 23⟩ :=
  C8_other_involution ⟨[192, 168, 6, 0], 23⟩ (by decide) (by decide)

/-- C10 witness: on the concrete block `10.0.0.0/8` the buddy-halves theorem
applies and evaluates. -/
theorem C10_buddy_exactly_one_lower_witness :
    ∃ b lb, CIDR.Other ⟨[10, 0, 0, 0], 8⟩ = some b ∧
      CIDR.IsLower ⟨[10, 0, 0, 0], 8⟩ = some lb ∧ b.IsLower = some (!lb) :=
  C10_buddy_exactly_one_lower ⟨[10, 0, 0, 0], 8⟩ (by decide) (by decide)

/-- A row of the `ip_range` table (`Record` in src/storage/x.go): pool id,
the owner this block is allocated to (field `AllocatedTo` in src/main.go,
`RequestID` in the storage code; empty means free), and the CIDR block. -/
structure Record where
  PoolID : Nat
  AllocatedTo : String
  C : CIDR
  deriving DecidableEq, Repr

/-- One write statement executed inside a transaction, journalled so that
frame properties (which writes an operation performs) are statable. -/
inductive StoreOp where
  | delete (poolID : Nat) (c : CIDR)
  | insert (records : List Record)
  | update (record : Record)
  deriving DecidableEq, Repr

/-- A transaction in flight: the rows as the transaction sees them plus the
journal of writes it has executed.  An `Except.error` from an operation
models a rollback: the whole state is discarded. -/
structure TxState where
  records : List Record
  ops : List StoreOp
  deriving DecidableEq, Repr

/-- Embedding of the transaction `Delete` (src/unnamed/part_000): a DELETE
keyed by pool and CIDR; `execContext` fails unless exactly one row is
affected.  Row keys are matched structurally: the SQL compares the stored
`cidr` value with the rendered text, and equal CIDR structures render equal
text while distinct same-family structures render distinct text. -/
def txDelete (tx : TxState) (poolID : Nat) (c : CIDR) : Except String TxState :=
  if (tx.records.countP fun r => decide (r.PoolID = poolID ∧ r.C = c)) = 1 then
    .ok { records := tx.records.filter fun r => !decide (r.PoolID = poolID ∧ r.C = c),
          ops := tx.ops ++ [.delete poolID c] }
  else
    .error "statement affected unexpected number of rows"

/-- Embedding of the transaction `Update` (src/unnamed/part_000): sets the
owner of the row keyed `(record.PoolID, record.C)`; fails unless exactly one
row is affected. -/
def txUpdate (tx : TxState) (record : Record) : Except String TxState :=
  if (tx.records.countP fun r =>
      decide (r.PoolID = record.PoolID ∧ r.C = record.C)) = 1 then
    .ok { records := tx.records.map fun r =>
            if r.PoolID = record.PoolID ∧ r.C = record.C then
              { r with AllocatedTo := record.AllocatedTo }
            else
              r,
          ops := tx.ops ++ [.update record] }
  else
    .error "statement affected unexpected number of rows"

/-- Does inserting `rec` conflict with row `r` under the constraints of
ddl_postgres.sql: the primary key `(pool_id, c)` or the partial unique index
`(pool_id, allocated_to) WHERE allocated_to IS NOT NULL`? -/
def conflicts (r rec : Record) : Bool :=
  (r.PoolID == rec.PoolID && r.C == rec.C) ||
    (rec.AllocatedTo != "" && r.PoolID == rec.PoolID &&
      r.AllocatedTo == rec.AllocatedTo)

/-- Conflicts inside one batch of rows to insert. -/
def batchConflicts : List Record → Bool
  | [] => false
  | rec :: rest => rest.any (fun r => conflicts rec r) || batchConflicts rest

/-- Embedding of the transaction `InsertMany` (src/unnamed/part_000): an
empty batch executes nothing; otherwise one INSERT of all rows, which the
database rejects with a constraint violation if any uniqueness constraint
would break. -/
def txInsertMany (tx : TxState) (records : List Record) : Except String TxState :=
  if records.isEmpty then
    .ok tx
  else if records.any (fun rec => tx.records.any fun r => conflicts r rec) ||
      batchConflicts records then
    .error "constraint violation"
  else
    .ok { records := tx.records ++ records, ops := tx.ops ++ [.insert records] }

/-- Embedding of the transaction `Get` (src/unnamed/part_000): selects
`request_id` of the row keyed `(poolID, c)`; the returned record is rebuilt
from the arguments plus the scanned owner, exactly as the Go code builds
`&storage.Record{PoolID: poolID, C: c}`. -/
def txGet (tx : TxState) (poolID : Nat) (c : CIDR) : Option Record :=
  match tx.records.find? fun r => decide (r.PoolID = poolID ∧ r.C = c) with
  | none => none
  | some row => some { PoolID := poolID, AllocatedTo := row.AllocatedTo, C := c }

/-- Embedding of the transaction `FindAllocated` (src/unnamed/part_000): an
empty requestID is an error; otherwise the first row of the pool allocated
to `requestID` (the unique index makes it unique in the real store). -/
def FindAllocated (records : List Record) (poolID : Nat) (requestID : String) :
    Except String (Option Record) :=
  if requestID = "" then
    .error "requestID must not be empty"
  else
    match records.find? fun r =>
        decide (r.PoolID = poolID ∧ r.AllocatedTo = requestID) with
    | none => .ok none
    | some row => .ok (some { PoolID := poolID, AllocatedTo := requestID, C := row.C })

/-- A row with maximal `PrefixBits`, the first such in row order: the model
of `ORDER BY masklen(c) DESC LIMIT 1` (ties are unspecified in SQL; the
allocator must not depend on which one is picked). -/
def argmaxPB : List Record → Option Record
  | [] => none
  | r :: rs =>
    match argmaxPB rs with
    | none => some r
    | some best => if best.C.PrefixBits > r.C.PrefixBits then some best else some r

/-- Embedding of the transaction `FindSmallestFree` (src/unnamed/part_000).
Note that, unlike every sibling query, neither the outer query nor the MAX
subquery filters on `pool_id`: both scan free rows (`request_id IS NULL`) of
every pool.  The row found is stamped with the caller's `poolID`, since the
Go code builds `&storage.Record{PoolID: poolID}` and scans only `c`. -/
def FindSmallestFree (tx : TxState) (poolID prefixBits : Nat) : Option Record :=
  let freeRows := tx.records.filter fun r => decide (r.AllocatedTo = "")
  match ((freeRows.filter fun r => decide (r.C.PrefixBits ≤ prefixBits)).map
      fun r => r.C.PrefixBits).max? with
  | none => none
  | some m =>
    match argmaxPB (freeRows.filter fun r => decide (r.C.PrefixBits ≤ m)) with
    | none => none
    | some row => some { PoolID := poolID, AllocatedTo := "", C := row.C }

/-- The split loop of `allocateIPCIDRRange` (src/main.go lines 98 to 109):
while the candidate is bigger than requested, stage the upper half as a new
free record and advance the candidate to the lower half.  The Go loop
decreases `prefixBits - record.C.PrefixBits` every iteration; `fuel` equals
that quantity at every call, so the fuel-exhausted branch is unreachable
from `allocateIPCIDRRange`. -/
def splitLoop (poolID prefixBits : Nat) :
    Nat → Record → List Record → Except String (Record × List Record)
  | 0, record, newRecords =>
    if record.C.PrefixBits < prefixBits then
      .error "loop fuel exhausted"
    else
      .ok (record, newRecords)
  | fuel + 1, record, newRecords =>
    if record.C.PrefixBits < prefixBits then
      match record.C.Split with
      | none => .error "panic: ipSetBit index out of range"
      | some upper =>
        splitLoop poolID prefixBits fuel
          { record with C := { record.C with PrefixBits := record.C.PrefixBits + 1 } }
          (newRecords ++ [{ PoolID := poolID, AllocatedTo := "", C := upper }])
    else
      .ok (record, newRecords)

/-- Embedding of `allocateIPCIDRRange` (src/main.go lines 52 to 131) over a
store snapshot: the idempotency fast path in a read-only transaction, then
find-smallest-free, the split loop, and the update-in-place versus
delete-and-insert persistence split.  On success the result is the
allocated CIDR plus the committed transaction; an error is a rollback. -/
def allocateIPCIDRRange (store : List Record) (poolID prefixBits : Nat)
    (allocatedTo : String) : Except String (CIDR × TxState) :=
  match FindAllocated store poolID allocatedTo with
  | .error e => .error e
  | .ok (some record) =>
    if record.C.PrefixBits ≠ prefixBits then
      .error "allocateIPCIDRRange was previously called with different prefixBits"
    else
      .ok (record.C, { records := store, ops := [] })
  | .ok none =>
    let tx : TxState := { records := store, ops := [] }
    match FindSmallestFree tx poolID prefixBits with
    | none => .error "no free IP address range"
    | some record =>
      if record.C.PrefixBits > prefixBits then
        .error "bug in code: FindSmallestFree returned record with a range of IP addresses that is smaller than the requested minimal size"
      else
        let recordOldPrefixBits := record.C.PrefixBits
        match splitLoop poolID prefixBits (prefixBits - record.C.PrefixBits) record [] with
        | .error e => .error e
        | .ok (record, newRecords) =>
          let record := { record with AllocatedTo := allocatedTo }
          if recordOldPrefixBits ≠ record.C.PrefixBits then
            match txDelete tx record.PoolID
                { record.C with PrefixBits := recordOldPrefixBits } with
            | .error e => .error e
            | .ok tx =>
              match txInsertMany tx (newRecords ++ [record]) with
              | .error e => .error e
              | .ok tx => .ok (record.C, tx)
          else
            match txUpdate tx record with
            | .error e => .error e
            | .ok tx =>
              match txInsertMany tx newRecords with
              | .error e => .error e
              | .ok tx => .ok (record.C, tx)

/-- The merge loop of `deallocateIPCIDRRange` (src/main.go lines 197 to 224):
while the buddy exists and is free, delete one of the pair and grow the
current block.  Returns the transaction, the final current record and the
prefix length of that record's on-disk row.  The Go loop decreases
`record.C.PrefixBits` every iteration; `fuel` equals it at every call, so
the fuel-exhausted branch is unreachable from `deallocateIPCIDRRange`. -/
def deallocLoop (poolID : Nat) :
    Nat → TxState → Record → Nat → Except String (TxState × Record × Nat)
  | 0, tx, record, recordOldPrefixBits =>
    if record.C.PrefixBits > 0 then
      .error "loop fuel exhausted"
    else
      .ok (tx, record, recordOldPrefixBits)
  | fuel + 1, tx, record, recordOldPrefixBits =>
    if record.C.PrefixBits > 0 then
      match record.C.Other with
        | none => .error "panic: Other on /0 or invalid CIDR"
        | some buddy =>
          match txGet tx poolID buddy with
          | none => .ok (tx, record, recordOldPrefixBits)
          | some record2 =>
            if record2.AllocatedTo ≠ "" then
              .ok (tx, record, recordOldPrefixBits)
            else
              match record.C.IsLower with
              | none => .error "panic: ipGetBit index out of range"
              | some isLow =>
                if isLow then
                  match txDelete tx record2.PoolID record2.C with
                  | .error e => .error e
                  | .ok tx =>
                    deallocLoop poolID fuel tx
                      { record with C :=
                          { record.C with PrefixBits := record.C.PrefixBits - 1 } }
                      recordOldPrefixBits
                else
                  match txDelete tx record.PoolID
                      { record.C with PrefixBits := recordOldPrefixBits } with
                  | .error e => .error e
                  | .ok tx =>
                    deallocLoop poolID fuel tx
                      { record2 with C :=
                          { record2.C with PrefixBits := record2.C.PrefixBits - 1 } }
                      record2.C.PrefixBits
    else
      .ok (tx, record, recordOldPrefixBits)

/-- Embedding of `deallocateIPCIDRRange` (src/main.go lines 168 to 234) over
a store snapshot: find the owner's record, remember its block as the result,
clear the owner, merge buddies as long as possible, then delete the final
on-disk row and insert one free record for the merged block. -/
def deallocateIPCIDRRange (store : List Record) (poolID : Nat)
    (allocatedTo : String) : Except String (CIDR × TxState) :=
  match FindAllocated store poolID allocatedTo with
  | .error e => .error e
  | .ok none => .error "record does not exist"
  | .ok (some record0) =>
    let tx : TxState := { records := store, ops := [] }
    let c := record0.C
    let recordOldPrefixBits := record0.C.PrefixBits
    let record := { record0 with AllocatedTo := "" }
    match deallocLoop poolID record.C.PrefixBits tx record recordOldPrefixBits with
    | .error e => .error e
    | .ok (tx, record, recordOldPrefixBits) =>
      match txDelete tx record.PoolID
          { record.C with PrefixBits := recordOldPrefixBits } with
      | .error e => .error e
      | .ok tx =>
        match txInsertMany tx [record] with
        | .error e => .error e
        | .ok tx => .ok (c, tx)

/-- On success the split loop has produced a candidate of exactly the
requested size: the loop only stops when `PrefixBits < prefixBits` fails,
and it never overshoots an in-bounds candidate. -/
theorem splitLoop_ok_prefixBits (poolID prefixBits : Nat) (fuel : Nat) :
    ∀ (record : Record) (newRecords : List Record) (res : Record × List Record),
      splitLoop poolID prefixBits fuel record newRecords = .ok res →
      record.C.PrefixBits ≤ prefixBits →
      res.1.C.PrefixBits = prefixBits := by
  induction fuel with
  | zero =>
    intro record newRecords res h hle
    rw [splitLoop] at h
    by_cases hg : record.C.PrefixBits < prefixBits
    · rw [if_pos hg] at h
      cases h
    · rw [if_neg hg] at h
      cases h
      show record.C.PrefixBits = prefixBits
      omega
  | succ fuel ih =>
    intro record newRecords res h hle
    rw [splitLoop] at h
    by_cases hg : record.C.PrefixBits < prefixBits
    · rw [if_pos hg] at h
      cases hsplit : record.C.Split with
      | none => rw [hsplit] at h; cases h
      | some upper =>
        rw [hsplit] at h
        exact ih _ _ _ h (by simpa using hg)
    · rw [if_neg hg] at h
      cases h
      show record.C.PrefixBits = prefixBits
      omega

/-- C2: whenever allocateIPCIDRRange succeeds, the returned block has exactly
the requested number of prefix bits — on the idempotent fast path because a
size mismatch errors out first, and on the main path because the split loop
runs until the candidate matches the request. -/
theorem C2_allocate_exact_size (store : List Record) (poolID prefixBits : Nat)
    (allocatedTo : String) (c : CIDR) (tx : TxState)
    (h : allocateIPCIDRRange store poolID prefixBits allocatedTo = .ok (c, tx)) :
    c.PrefixBits = prefixBits := by
  rw [allocateIPCIDRRange] at h
  split at h
  · simp at h
  · split at h
    · simp at h
    · next hne =>
      cases h
      omega
  · simp only [] at h
    split at h
    · simp at h
    · next record heq =>
      split at h
      · simp at h
      · next hgt =>
        split at h
        · simp at h
        · next record2 newRecords hsl =>
          have hpb : record2.C.PrefixBits = prefixBits :=
            splitLoop_ok_prefixBits _ _ _ _ _ _ hsl (by omega)
          split at h
          · split at h
            · simp at h
            · split at h
              · simp at h
              · cases h
                exact hpb
          · split at h
            · simp at h
            · split at h
              · simp at h
              · cases h
                exact hpb

/-- Any record FindAllocated returns is rebuilt from a row of the store that
belongs to the pool and is allocated to the request id. -/
theorem FindAllocated_ok_some_eq (records : List Record) (poolID : Nat)
    (rid : String) (record : Record)
    (h : FindAllocated records poolID rid = .ok (some record)) :
    ∃ row ∈ records, row.PoolID = poolID ∧ row.AllocatedTo = rid ∧
      record = { PoolID := poolID, AllocatedTo := rid, C := row.C } := by
  rw [FindAllocated] at h
  split at h
  · simp at h
  · split at h
    · simp at h
    · next row hfind =>
      cases h
      have hmem := List.mem_of_find?_eq_some hfind
      have hprop := List.find?_some hfind
      simp at hprop
      exact ⟨row, hmem, hprop.1, hprop.2, rfl⟩

/-- C3: when a record allocated to the owner already exists, a matching
requested size returns that record's block without opening the write
transaction (the result store equals the input and the write journal is
empty), and a differing size fails with the size-mismatch error — an error
models a rollback, so in neither case is anything written. -/
theorem C3_allocate_idempotent_or_mismatch (store : List Record)
    (poolID prefixBits : Nat) (allocatedTo : String) (r : Record)
    (hne : allocatedTo ≠ "")
    (hfind : store.find?
      (fun x => decide (x.PoolID = poolID ∧ x.AllocatedTo = allocatedTo)) = some r) :
    (r.C.PrefixBits = prefixBits →
      allocateIPCIDRRange store poolID prefixBits allocatedTo =
        .ok (r.C, { records := store, ops := [] })) ∧
    (r.C.PrefixBits ≠ prefixBits →
      allocateIPCIDRRange store poolID prefixBits allocatedTo =
        .error "allocateIPCIDRRange was previously called with different prefixBits") := by
  have hfa : FindAllocated store poolID allocatedTo =
      .ok (some { PoolID := poolID, AllocatedTo := allocatedTo, C := r.C }) := by
    rw [FindAllocated, if_neg hne, hfind]
  have hstep : allocateIPCIDRRange store poolID prefixBits allocatedTo =
      if r.C.PrefixBits ≠ prefixBits then
        .error "allocateIPCIDRRange was previously called with different prefixBits"
      else
        .ok (r.C, { records := store, ops := [] }) := by
    rw [allocateIPCIDRRange, hfa]
  constructor
  · intro hpb
    rw [hstep, if_neg (by omega)]
  · intro hpb
    rw [hstep, if_pos hpb]

/-- C4: a successful deallocation returns exactly the block of the record
that was allocated to the owner at the start — same address bytes and same
prefix length — however many buddy merges ran afterwards, because the Go
code saves `c = record.C` before the merge loop and the loop never mutates
the saved value's address bytes in place (Other and Split copy first). -/
theorem C4_deallocate_returns_original_block (store : List Record) (poolID : Nat)
    (allocatedTo : String) (c : CIDR) (tx : TxState)
    (h : deallocateIPCIDRRange store poolID allocatedTo = .ok (c, tx)) :
    ∃ r ∈ store, r.PoolID = poolID ∧ r.AllocatedTo = allocatedTo ∧ c = r.C := by
  rw [deallocateIPCIDRRange] at h
  split at h
  · simp at h
  · simp at h
  · next record0 hfa =>
    simp only [] at h
    obtain ⟨row, hmem, hpool, hrid, hrec⟩ :=
      FindAllocated_ok_some_eq store poolID allocatedTo record0 hfa
    split at h
    · simp at h
    · next tx2 record2 old2 hloop =>
      split at h
      · simp at h
      · next tx3 hdel =>
        split at h
        · simp at h
        · next tx4 hins =>
          cases h
          exact ⟨row, hmem, hpool, hrid, by rw [hrec]⟩

/-- When the merge loop stops immediately (the buddy is absent or
allocated, or the block is the whole space), it returns its inputs
unchanged. -/
theorem deallocLoop_no_merge (poolID fuel : Nat) (tx : TxState) (record : Record)
    (oldPB : Nat) (result : TxState × Record × Nat)
    (hstop : ∀ buddy, record.C.Other = some buddy →
      ∀ r2, txGet tx poolID buddy = some r2 → r2.AllocatedTo ≠ "")
    (hres : deallocLoop poolID fuel tx record oldPB = .ok result) :
    result = (tx, record, oldPB) := by
  cases fuel with
  | zero =>
    rw [deallocLoop] at hres
    split at hres
    · cases hres
    · cases hres
      rfl
  | succ fuel =>
    rw [deallocLoop] at hres
    split at hres
    · split at hres
      · cases hres
      · next buddy hother =>
        split at hres
        · cases hres
          rfl
        · next r2 hget =>
          split at hres
          · cases hres
            rfl
          · next hfree =>
            exact absurd (hstop buddy hother r2 hget) hfree
    · cases hres
      rfl

/-- C5 (amended): when Deallocate frees a block with zero merge iterations,
the freed record keeps its (pool, block) key and its owner is cleared, but
this is realized as a Delete of the row followed by an InsertMany of the
free row — the write journal holds exactly those two operations and no
Update (deallocateIPCIDRRange never calls Update). -/
theorem C5_zero_merge_delete_insert (store : List Record) (poolID : Nat)
    (allocatedTo : String) (c : CIDR) (tx : TxState)
    (h : deallocateIPCIDRRange store poolID allocatedTo = .ok (c, tx))
    (hnomerge : ∀ buddy, c.Other = some buddy →
      ∀ r2, txGet { records := store, ops := [] } poolID buddy = some r2 →
        r2.AllocatedTo ≠ "") :
    tx.ops = [.delete poolID c,
      .insert [{ PoolID := poolID, AllocatedTo := "", C := c }]] := by
  rw [deallocateIPCIDRRange] at h
  split at h
  · simp at h
  · simp at h
  · next record0 hfa =>
    simp only [] at h
    obtain ⟨row, hmem, hpool, hrid, hrec⟩ :=
      FindAllocated_ok_some_eq store poolID allocatedTo record0 hfa
    subst hrec
    split at h
    · simp at h
    · next tx2 record2 old2 hloop =>
      split at h
      · simp at h
      · next tx3 hdel =>
        split at h
        · simp at h
        · next tx4 hins =>
          cases h
          have heq := deallocLoop_no_merge _ _ _ _ _ _
            (by intro buddy hb r2 hr2; exact hnomerge buddy hb r2 hr2) hloop
          rw [Prod.mk.injEq, Prod.mk.injEq] at heq
          obtain ⟨htx2, hrec2, hold2⟩ := heq
          subst htx2
          subst hrec2
          subst hold2
          rw [txDelete] at hdel
          split at hdel
          · cases hdel
            rw [txInsertMany] at hins
            split at hins
            · next hempty => simp at hempty
            · split at hins
              · cases hins
              · cases hins
                rfl
          · cases hdel

/-- True exactly on Update journal entries. -/
def isUpdate : StoreOp → Bool
  | .update _ => true
  | _ => false

/-- C1: FindSmallestFree ignores the pool.  With a store whose only record
is a free /8 of pool 2, a search in pool 1 returns that row stamped
PoolID = 1, although no record of pool 1 exists at all — the query filters
only on `request_id IS NULL` and masklen, never on pool_id. -/
theorem C1_find_smallest_free_ignores_pool :
    FindSmallestFree ⟨[⟨2, "", ⟨[10, 0, 0, 0], 8⟩⟩], []⟩ 1 8 =
      some ⟨1, "", ⟨[10, 0, 0, 0], 8⟩⟩ ∧
    (([⟨2, "", ⟨[10, 0, 0, 0], 8⟩⟩] : List Record).all
      fun r => decide (r.PoolID ≠ 1)) = true :=
  ⟨rfl, rfl⟩

/-- The error classes the demo driver `run` (src/main.go) distinguishes: a
database error carrying its SQLSTATE code, the record-does-not-exist
sentinel, or anything else. -/
inductive RunError where
  | pg (code : String)
  | recordDoesNotExist
  | other (msg : String)
  deriving DecidableEq, Repr

/-- What a driver loop does after an operation fails. -/
inductive ErrAction where
  | retry
  | skipToNext
  | surface
  deriving DecidableEq, Repr

/-- Embedding of the allocation workers' error dispatch (src/main.go lines
369 to 387): SQLSTATE 40001 (serialization failure) and 23505 (unique
violation) retry the same allocation; any other error is surfaced. -/
def allocLoopOnError : RunError → ErrAction
  | .pg code => if code = "40001" ∨ code = "23505" then .retry else .surface
  | _ => .surface

/-- Embedding of the deallocation loop's error dispatch (src/main.go lines
394 to 407): the record-does-not-exist sentinel is skipped (move to the next
owner); every other error — serialization conflicts included — is returned
from `run`. -/
def deallocLoopOnError : RunError → ErrAction
  | .recordDoesNotExist => .skipToNext
  | _ => .surface

/-- C6 counterexample: on a serialization conflict (SQLSTATE 40001) the
allocation loop retries but the deallocation loop surfaces the error to the
caller — the two retry policies are not the same, and Deallocate is not
retried. -/
theorem C6_counterexample_conflict_surfaces :
    deallocLoopOnError (.pg "40001") = .surface ∧
    allocLoopOnError (.pg "40001") = .retry ∧
    ErrAction.surface ≠ ErrAction.retry :=
  ⟨rfl, rfl, by decide⟩

/-- C6 (amended): the deallocation loop never retries any error; the only
error it handles specially is record-does-not-exist, which it skips — every
other Deallocate failure, a serialization conflict included, is surfaced. -/
theorem C6_dealloc_no_retry (e : RunError) :
    deallocLoopOnError e ≠ ErrAction.retry ∧
    (deallocLoopOnError e = ErrAction.skipToNext ↔ e = RunError.recordDoesNotExist) := by
  cases e <;> simp [deallocLoopOnError]

/-- C6 witness: the amended theorem evaluated at a serialization conflict. -/
theorem C6_dealloc_no_retry_witness :
    deallocLoopOnError (.pg "40001") ≠ ErrAction.retry ∧
    (deallocLoopOnError (.pg "40001") = ErrAction.skipToNext ↔
      RunError.pg "40001" = RunError.recordDoesNotExist) :=
  C6_dealloc_no_retry (.pg "40001")

/-- C5 counterexample: deallocating 10.0.0.0/8 from owner1 when the buddy
row is absent runs zero merge iterations (the loop returns its inputs), and
the write journal is Delete then InsertMany of the same key with the owner
cleared — no Update anywhere. -/
theorem C5_counterexample_no_update :
    deallocateIPCIDRRange [⟨1, "owner1", ⟨[10, 0, 0, 0], 8⟩⟩] 1 "owner1" =
      .ok (⟨[10, 0, 0, 0], 8⟩,
        ⟨[⟨1, "", ⟨[10, 0, 0, 0], 8⟩⟩],
          [.delete 1 ⟨[10, 0, 0, 0], 8⟩,
           .insert [⟨1, "", ⟨[10, 0, 0, 0], 8⟩⟩]]⟩) ∧
    deallocLoop 1 8 ⟨[⟨1, "owner1", ⟨[10, 0, 0, 0], 8⟩⟩], []⟩
      ⟨1, "", ⟨[10, 0, 0, 0], 8⟩⟩ 8 =
      .ok (⟨[⟨1, "owner1", ⟨[10, 0, 0, 0], 8⟩⟩], []⟩,
        ⟨1, "", ⟨[10, 0, 0, 0], 8⟩⟩, 8) ∧
    (([StoreOp.delete 1 ⟨[10, 0, 0, 0], 8⟩,
       .insert [⟨1, "", ⟨[10, 0, 0, 0], 8⟩⟩]] : List StoreOp).all
      fun op => !isUpdate op) = true :=
  ⟨rfl, rfl, rfl⟩

/-- C5 witness: the amended theorem applied to the concrete zero-merge
deallocation of 10.0.0.0/8. -/
theorem C5_zero_merge_witness :
    TxState.ops ⟨[⟨1, "", ⟨[10, 0, 0, 0], 8⟩⟩],
      [.delete 1 ⟨[10, 0, 0, 0], 8⟩, .insert [⟨1, "", ⟨[10, 0, 0, 0], 8⟩⟩]]⟩ =
      [.delete 1 ⟨[10, 0, 0, 0], 8⟩,
       .insert [{ PoolID := 1, AllocatedTo := "", C := ⟨[10, 0, 0, 0], 8⟩ }]] :=
  C5_zero_merge_delete_insert [⟨1, "owner1", ⟨[10, 0, 0, 0], 8⟩⟩] 1 "owner1"
    ⟨[10, 0, 0, 0], 8⟩
    ⟨[⟨1, "", ⟨[10, 0, 0, 0], 8⟩⟩],
      [.delete 1 ⟨[10, 0, 0, 0], 8⟩, .insert [⟨1, "", ⟨[10, 0, 0, 0], 8⟩⟩]]⟩
    rfl
    (by
      intro buddy hb r2 hr2
      rw [show CIDR.Other ⟨[10, 0, 0, 0], 8⟩ = some ⟨[11, 0, 0, 0], 8⟩ from rfl] at hb
      cases hb
      rw [show txGet ⟨[⟨1, "owner1", ⟨[10, 0, 0, 0], 8⟩⟩], []⟩ 1 ⟨[11, 0, 0, 0], 8⟩ =
        none from rfl] at hr2
      cases hr2)

/-- C2 witness: allocating a /10 for w1 out of a free /8 succeeds and the
exact-size theorem applies to that concrete run. -/
theorem C2_allocate_exact_size_witness :
    (⟨[10, 0, 0, 0], 10⟩ : CIDR).PrefixBits = 10 :=
  C2_allocate_exact_size [⟨1, "", ⟨[10, 0, 0, 0], 8⟩⟩] 1 10 "w1"
    ⟨[10, 0, 0, 0], 10⟩
    ⟨[⟨1, "", ⟨[10, 128, 0, 0], 9⟩⟩, ⟨1, "", ⟨[10, 64, 0, 0], 10⟩⟩,
      ⟨1, "w1", ⟨[10, 0, 0, 0], 10⟩⟩],
     [.delete 1 ⟨[10, 0, 0, 0], 8⟩,
      .insert [⟨1, "", ⟨[10, 128, 0, 0], 9⟩⟩, ⟨1, "", ⟨[10, 64, 0, 0], 10⟩⟩,
        ⟨1, "w1", ⟨[10, 0, 0, 0], 10⟩⟩]]⟩
    rfl

/-- C3 witness: re-allocating with the same size returns the existing block
and writes nothing; re-allocating with a different size fails. -/
theorem C3_allocate_idempotent_witness :
    allocateIPCIDRRange [⟨1, "w1", ⟨[10, 0, 0, 0], 10⟩⟩] 1 10 "w1" =
      .ok (⟨[10, 0, 0, 0], 10⟩,
        { records := [⟨1, "w1", ⟨[10, 0, 0, 0], 10⟩⟩], ops := [] }) ∧
    allocateIPCIDRRange [⟨1, "w1", ⟨[10, 0, 0, 0], 10⟩⟩] 1 12 "w1" =
      .error "allocateIPCIDRRange was previously called with different prefixBits" :=
  ⟨(C3_allocate_idempotent_or_mismatch [⟨1, "w1", ⟨[10, 0, 0, 0], 10⟩⟩] 1 10 "w1"
      ⟨1, "w1", ⟨[10, 0, 0, 0], 10⟩⟩ (by decide) rfl).1 rfl,
   (C3_allocate_idempotent_or_mismatch [⟨1, "w1", ⟨[10, 0, 0, 0], 10⟩⟩] 1 12 "w1"
      ⟨1, "w1", ⟨[10, 0, 0, 0], 10⟩⟩ (by decide) rfl).2 (by decide)⟩

/-- C4 witness: deallocating the upper /9 of a /8 whose lower /9 is free
merges back into the /8, yet the operation returns the upper /9 that was
originally owned. -/
theorem C4_deallocate_returns_original_block_witness :
    ∃ r ∈ ([⟨1, "", ⟨[10, 0, 0, 0], 9⟩⟩, ⟨1, "w2", ⟨[10, 128, 0, 0], 9⟩⟩] :
      List Record), r.PoolID = 1 ∧ r.AllocatedTo = "w2" ∧
      (⟨[10, 128, 0, 0], 9⟩ : CIDR) = r.C :=
  C4_deallocate_returns_original_block
    [⟨1, "", ⟨[10, 0, 0, 0], 9⟩⟩, ⟨1, "w2", ⟨[10, 128, 0, 0], 9⟩⟩] 1 "w2"
    ⟨[10, 128, 0, 0], 9⟩
    ⟨[⟨1, "", ⟨[10, 0, 0, 0], 8⟩⟩],
     [.delete 1 ⟨[10, 128, 0, 0], 9⟩, .delete 1 ⟨[10, 0, 0, 0], 9⟩,
      .insert [⟨1, "", ⟨[10, 0, 0, 0], 8⟩⟩]]⟩
    rfl

end IPAlloc
